import Mathlib

/-!
Verification of the MFA / OTP core of the adapti-finance-pal repository.

Shallow embedding of:
- the symmetric secret cipher wrappers `encryptSecret` / `decryptSecret`
  (supabase/functions/mfa-setup/index.ts, lines 20-55): the AES-GCM AEAD and
  the base64 codec (`crypto.subtle`, `btoa`/`atob`) are platform collaborators
  and are abstracted as function fields of `CipherPlatform`, with their
  documented contracts appearing as explicit hypotheses of the theorems;
- the TOTP engine (the OTPAuth library, a dependency that is not part of the
  repository's own sources): modelled from the spec's algorithm description;
- the `mfa-setup` edge-function handler (setup / verify / check / validate
  branches) as a pure step function on the caller's `mfa_secrets` row;
- the MFA gate of the `ai-tutor` / `investment-recommendations` edge
  functions;
- the `send-otp` edge-function handler over the `email_otp` table.

Bytes are `Nat` (values < 256 where it matters); timestamps are `Nat`
milliseconds since epoch; database state is the caller's single
`Option MfaRecord` row (each MFA action touches only the caller's row) and a
`List OtpRow` for the `email_otp` table.
-/

namespace AdaptiFinance

/-! ## Symmetric secret cipher (mfa-setup/index.ts lines 20-55) -/

/-- Platform collaborators used by `encryptSecret` / `decryptSecret`:
`aeadSeal`/`aeadOpen` stand for `crypto.subtle.encrypt`/`decrypt` with AES-GCM
under the process-wide key (the key is loaded once by `getEncryptionKey` and
is a constant of the process, so it is absorbed into the functions);
`b64encode`/`b64decode` stand for `btoa(String.fromCharCode(...))` /
`Uint8Array.from(atob(...))`.  A base64 string is represented by its
character-code sequence. -/
structure CipherPlatform where
  aeadSeal : List Nat → List Nat → List Nat
  aeadOpen : List Nat → List Nat → Option (List Nat)
  b64encode : List Nat → List Nat
  b64decode : List Nat → List Nat

/-- `encryptSecret` (lines 20-37): generate a 12-byte random IV (passed in
here, since randomness is a platform effect), AEAD-seal the plaintext, prepend
the IV to the ciphertext, base64-encode the combined blob. -/
def encryptSecret (P : CipherPlatform) (iv : List Nat) (plaintext : List Nat) :
    List Nat :=
  P.b64encode (iv ++ P.aeadSeal iv plaintext)

/-- `decryptSecret` (lines 39-55): base64-decode, split the first 12 bytes off
as the IV, AEAD-open the rest.  `none` models the thrown exception when the
authentication tag does not verify. -/
def decryptSecret (P : CipherPlatform) (blob : List Nat) : Option (List Nat) :=
  let combined := P.b64decode blob
  P.aeadOpen (combined.take 12) (combined.drop 12)

/-! ## TOTP engine

Modelled from the spec: the TOTP computation lives in the OTPAuth library
(imported by URL in mfa-setup/index.ts), whose code is not under the
repository's sources; the spec describes it as: counter = floor(time /
period), HMAC-SHA1(secret, counter) truncated via dynamic offset to a 6-digit
zero-padded decimal; `validate` accepts the code if it matches `currentCode`
at any time-step offset in [-window, +window], first match short-circuits.
The HMAC itself is an arbitrary parameter `hmac` (the round-trip property is
independent of the hash). -/

/-- Big-endian byte encoding of a natural number on `n` bytes. -/
def bytesBE : Nat → Nat → List Nat
  | 0, _ => []
  | n + 1, v => bytesBE n (v / 256) ++ [v % 256]

/-- The 8-byte big-endian counter message fed to the HMAC; an `Int` counter is
encoded two's-complement modulo 2^64. -/
def counterBytes (c : Int) : List Nat :=
  bytesBE 8 (Int.toNat (Int.emod c (2 ^ 64)))

/-- Dynamic truncation (RFC 4226): offset = low nibble of the last MAC byte;
take 31 bits starting there; reduce modulo 10^6. -/
def dynamicTruncate (mac : List Nat) : Nat :=
  let offset := (mac.getLastD 0) % 16
  ((mac.getD offset 0 % 128) * 2 ^ 24 + mac.getD (offset + 1) 0 * 2 ^ 16 +
      mac.getD (offset + 2) 0 * 2 ^ 8 + mac.getD (offset + 3) 0) % 10 ^ 6

/-- Zero-pad a 6-digit decimal code (the truncated value is < 10^6). -/
def padSix (n : Nat) : String :=
  let s := toString n
  String.mk (List.replicate (6 - s.length) '0') ++ s

/-- HOTP code for a counter: HMAC over the 8-byte counter, dynamically
truncated, rendered as a zero-padded 6-digit decimal string. -/
def hotpCode (hmac : List Nat → List Nat → List Nat) (secret : List Nat)
    (counter : Int) : String :=
  padSix (dynamicTruncate (hmac secret (counterBytes counter)))

/-- TOTP current code at Unix time `t` seconds: counter = floor(t / 30),
period 30 s, 6 digits. -/
def totpCurrentCode (hmac : List Nat → List Nat → List Nat) (secret : List Nat)
    (t : Nat) : String :=
  hotpCode hmac secret (Int.ofNat (t / 30))

/-- Offsets tried by `validate` with tolerance `w`: -w, ..., 0, ..., +w. -/
def totpOffsets (w : Nat) : List Int :=
  (List.range (2 * w + 1)).map (fun i => (i : Int) - (w : Int))

/-- The OTPAuth-style `validate`: returns the first time-step offset delta in
[-window, +window] at which the submitted token equals the generated code
(`none` when no offset matches).  String equality against the generated
6-digit code also rejects any token that is not exactly 6 digits. -/
def totpValidateDelta (hmac : List Nat → List Nat → List Nat)
    (secret : List Nat) (token : String) (t : Nat) (window : Nat) :
    Option Int :=
  (totpOffsets window).find? (fun d => hotpCode hmac secret ((t / 30 : Nat) + d) == token)

/-! ## MFA enrollment state machine (mfa-setup/index.ts lines 62-222)

The handler is modelled on the authenticated path (the 401 branch and the CORS
preflight return before any state is touched).  The caller's `mfa_secrets` row
is `Option MfaRecord`; platform effects of one request (the freshly generated
secret and its encryption, the decryption function, the TOTP window-1 match,
and whether the upsert succeeds) are fields of `MfaEnv`. -/

/-- One `mfa_secrets` row for the caller: `secret` is the stored ciphertext
blob, `enabled` the activation flag (table `mfa_secrets`, primary key
`user_id`). -/
structure MfaRecord where
  secret : List Nat
  enabled : Bool
deriving DecidableEq, Repr

/-- The `action` discriminant of the request body. -/
inductive MfaAction
  | setup
  | verify
  | check
  | validate
deriving DecidableEq, Repr

/-- The JSON response of one request, with its HTTP status where it is not
200: `setupOk` is the 200 setup payload, `valid` the `{valid: b}` payload of
verify/validate, `enabledAns` the `{enabled: b}` payload of check, and
`errorResp` an `{error: msg}` payload with the given status. -/
inductive MfaResponse
  | setupOk (secret qrCodeUrl : String)
  | valid (b : Bool)
  | enabledAns (b : Bool)
  | errorResp (status : Nat) (msg : String)
deriving DecidableEq, Repr

/-- The generic message of the outer catch block (line 217). -/
def genericErrorMsg : String := "An error occurred. Please try again."

/-- Per-request platform context of the mfa-setup handler:
`freshSecretB32` and `qrUri` are the base32 secret and provisioning URI
produced by `new OTPAuth.Secret` / `totp.toString()` during `setup`;
`encryptedFresh` is `encryptSecret` of that fresh secret; `insertOk` is
whether the upsert succeeds; `decrypt` is `decryptSecret` under the process
key (`none` models a thrown decryption error); `totpMatch s token` is
`totp.validate(token, window: 1) !== null` against decrypted secret `s`. -/
structure MfaEnv where
  freshSecretB32 : String
  qrUri : String
  encryptedFresh : List Nat
  insertOk : Bool
  decrypt : List Nat → Option String
  totpMatch : String → String → Bool

/-- One request to the mfa-setup handler: maps the caller's current row and
the request to the new row and the response, following the source branches
line by line (setup: lines 84-120; verify: 122-161; check: 163-175; validate:
177-207).  A decryption failure inside verify/validate throws and is caught by
the outer catch (lines 215-221), which answers 500 with the fixed generic
message and leaves the row untouched. -/
def mfaHandler (env : MfaEnv) (a : MfaAction) (token : String)
    (st : Option MfaRecord) : Option MfaRecord × MfaResponse :=
  match a with
  | .setup =>
      if env.insertOk then
        (some ⟨env.encryptedFresh, false⟩,
         .setupOk env.freshSecretB32 env.qrUri)
      else
        (st, .errorResp 500 "Failed to setup MFA")
  | .verify =>
      match st with
      | none => (st, .errorResp 400 "MFA not setup")
      | some r =>
          match env.decrypt r.secret with
          | none => (st, .errorResp 500 genericErrorMsg)
          | some s =>
              if env.totpMatch s token then
                (some { r with enabled := true }, .valid true)
              else
                (st, .valid false)
  | .check =>
      (st, .enabledAns (match st with | some r => r.enabled | none => false))
  | .validate =>
      match st with
      | none => (st, .valid true)
      | some r =>
          if r.enabled = false then
            (st, .valid true)
          else
            match env.decrypt r.secret with
            | none => (st, .errorResp 500 genericErrorMsg)
            | some s => (st, .valid (env.totpMatch s token))

/-- Run a sequence of requests from a starting row, keeping the final row. -/
def mfaRun (trace : List (MfaEnv × MfaAction × String))
    (st : Option MfaRecord) : Option MfaRecord :=
  trace.foldl (fun s step => (mfaHandler step.1 step.2.1 step.2.2 s).1) st

/-- The `enabled` flag the check branch reports for a row
(`mfaData?.enabled || false`). -/
def enabledOf (st : Option MfaRecord) : Bool :=
  match st with
  | some r => r.enabled
  | none => false

/-! ## MFA gate of the privileged edge functions
(ai-tutor/index.ts lines 54-81; the investment-recommendations function has
the identical gate). -/

/-- Outcome of the gate section of a privileged handler: either a 403
response is returned before the privileged action, or control reaches the
outbound LLM call. -/
inductive GateOutcome
  | respond (status : Nat) (msg : String)
  | llmCall
deriving DecidableEq, Repr

/-- The MFA gate: read the caller's `mfa_secrets.enabled`; when enabled,
demand the `X-MFA-Token` header (403 when absent) and invoke the mfa-setup
`validate` action on the same caller's row; any invoke error or a
non-`{valid:true}` answer is a 403; only then does control fall through to
the privileged LLM call. -/
def aiTutorGate (env : MfaEnv) (st : Option MfaRecord)
    (mfaToken : Option String) : GateOutcome :=
  if enabledOf st then
    match mfaToken with
    | none => .respond 403 "MFA token required for this operation"
    | some tok =>
        match (mfaHandler env .validate tok st).2 with
        | .valid true => .llmCall
        | _ => .respond 403 "Invalid MFA token"
  else
    .llmCall

/-! ## Email OTP challenge service (send-otp handler, src/unnamed/part_001
lines 350-499) -/

/-- One row of the `email_otp` table as inserted by the handler. -/
structure OtpRow where
  email : String
  otpCode : String
  typ : String
  expiresAt : Nat
  verified : Bool
deriving DecidableEq, Repr

/-- Whether a stored row belongs to the case-normalized (email, purpose)
pair: both the delete filter and the inserted row use
`email.toLowerCase()`. -/
def matchesPair (email typ : String) (r : OtpRow) : Bool :=
  r.email == email.toLower && r.typ == typ

/-- Rows of the store for a given (email, purpose) pair. -/
def pairRows (store : List OtpRow) (email typ : String) : List OtpRow :=
  store.filter (matchesPair email typ)

/-- The row inserted by the handler (lines 406-412): lower-cased email, the
generated code, the purpose, expiry `Date.now() + 10 * 60 * 1000` ms,
`verified: false`. -/
def newOtpRow (now : Nat) (code email typ : String) : OtpRow :=
  ⟨email.toLower, code, typ, now + 10 * 60 * 1000, false⟩

/-- The send-otp handler (lines 368-497) as a function of the request and the
per-request platform effects: `now` is `Date.now()`, `code` the value of
`generateOtp()`, `insertOk` whether the insert succeeds, `sendOk` whether the
outbound Resend call succeeds.  Returns the new `email_otp` store and the
HTTP status (200, 400 or 500).  The handler consults no caller identity and
no account table: the service-role client acts unconditionally.
Branches in source order: empty email → 400 before any effect; delete all
rows of the pair; insert the fresh row (an insert error throws → 500 with the
delete already applied); attempt the email send (a send failure throws → 500
with the inserted row still persisted); otherwise 200. -/
def sendOtpHandler (now : Nat) (code : String) (insertOk sendOk : Bool)
    (email typ : String) (store : List OtpRow) : List OtpRow × Nat :=
  if email = "" then
    (store, 400)
  else
    let deleted := store.filter (fun r => !(matchesPair email typ r))
    if insertOk then
      let inserted := deleted ++ [newOtpRow now code email typ]
      if sendOk then (inserted, 200) else (inserted, 500)
    else
      (deleted, 500)

/-- One issue request with its per-request platform effects. -/
structure IssueReq where
  now : Nat
  code : String
  insertOk : Bool
  sendOk : Bool
  email : String
  typ : String
deriving DecidableEq, Repr

/-- The store after one issue request (the response is dropped). -/
def issueStep (req : IssueReq) (store : List OtpRow) : List OtpRow :=
  (sendOtpHandler req.now req.code req.insertOk req.sendOk req.email req.typ
    store).1

/-- The store after a sequence of issue requests starting from the empty
table. -/
def runIssues (reqs : List IssueReq) : List OtpRow :=
  reqs.foldl (fun s req => issueStep req s) []

/-- Number of stored challenge rows for a (email, purpose) pair. -/
def countPair (store : List OtpRow) (email typ : String) : Nat :=
  (pairRows store email typ).length

/-! ## Concrete test instances used by witnesses -/

/-- A toy AEAD/base64 platform satisfying the collaborator contracts on
concrete inputs: sealing prepends a tag byte 7, opening checks and strips it,
the base64 codec is the identity on byte lists. -/
def toyCipher : CipherPlatform where
  aeadSeal := fun _ p => 7 :: p
  aeadOpen := fun _ c => match c with
    | 7 :: rest => some rest
    | _ => none
  b64encode := fun l => l
  b64decode := fun l => l

/-- Setup environment: fresh secret stored as ciphertext blob `[1]`. -/
def envSetupA : MfaEnv :=
  ⟨"SECRETA", "otpauth-a", [1], true, fun _ => none, fun _ _ => false⟩

/-- Second setup environment: fresh secret stored as blob `[3]`. -/
def envSetupB : MfaEnv :=
  ⟨"SECRETB", "otpauth-b", [3], true, fun _ => none, fun _ _ => false⟩

/-- Verification environment whose decryption knows blob `[1]` and whose
window-1 TOTP match always succeeds. -/
def envVerifyGood : MfaEnv :=
  ⟨"", "", [], true,
   fun c => if c = [1] then some "sA" else none, fun _ _ => true⟩

/-- Verification environment whose decryption knows blob `[1]` and whose
window-1 TOTP match always fails. -/
def envVerifyBad : MfaEnv :=
  ⟨"", "", [], true,
   fun c => if c = [1] then some "sA" else none, fun _ _ => false⟩

/-- Environment whose decryption fails on every blob (corrupted or foreign
secret). -/
def envDecFail : MfaEnv :=
  ⟨"", "", [], true, fun _ => none, fun _ _ => false⟩

/-! # Claims -/

/-- C7: TOTP round-trip — for any HMAC, any secret and any timestamp `t`,
validating the code produced by `currentCode(secret, t)` at time `t` with
window 0 succeeds (the validation finds offset 0). -/
theorem totp_roundtrip_window0 (hmac : List Nat → List Nat → List Nat)
    (secret : List Nat) (t : Nat) :
    totpValidateDelta hmac secret (totpCurrentCode hmac secret t) t 0 =
      some 0 := by
  simp [totpValidateDelta, totpOffsets, totpCurrentCode, List.range_succ,
    List.find?]

/-- C8: cipher round-trip — under the AEAD and base64 collaborator contracts,
decrypting an encryption returns the original plaintext (the 12-byte nonce
prepended by encryption is split off before the AEAD open), and any blob
whose authentication tag fails to verify makes `decryptSecret` fail (`none`)
rather than return a different plaintext. -/
theorem cipher_roundtrip_and_tamper (P : CipherPlatform)
    (iv plaintext blob : List Nat)
    (hB : ∀ l, P.b64decode (P.b64encode l) = l)
    (hS : P.aeadOpen iv (P.aeadSeal iv plaintext) = some plaintext)
    (hIv : iv.length = 12)
    (hT : P.aeadOpen ((P.b64decode blob).take 12)
        ((P.b64decode blob).drop 12) = none) :
    decryptSecret P (encryptSecret P iv plaintext) = some plaintext ∧
    decryptSecret P blob = none := by
  constructor
  · show P.aeadOpen ((P.b64decode (encryptSecret P iv plaintext)).take 12)
      ((P.b64decode (encryptSecret P iv plaintext)).drop 12) = some plaintext
    rw [encryptSecret, hB, ← hIv, List.take_left, List.drop_left]
    exact hS
  · exact hT

/-- C8 witness: the round trip and the tamper failure evaluated on the toy
platform at a concrete nonce, plaintext and corrupt blob. -/
theorem cipher_roundtrip_and_tamper_witness :
    decryptSecret toyCipher
        (encryptSecret toyCipher (List.replicate 12 0) [1, 2, 3]) =
      some [1, 2, 3] ∧
    decryptSecret toyCipher [] = none :=
  cipher_roundtrip_and_tamper toyCipher (List.replicate 12 0) [1, 2, 3] []
    (fun _ => rfl) rfl (by decide) rfl

/-- C4: the validate action is a read-only gate — it never writes the
caller's row (same state on every path); with no record or `enabled=false` it
answers `{valid: true}` regardless of the token; with `enabled=true`, a
decryptable secret and a token that does not match it answers
`{valid: false}`. -/
theorem mfa_validate_readonly_gate (env : MfaEnv) (token : String)
    (st : Option MfaRecord) :
    (mfaHandler env .validate token st).1 = st ∧
    (st = none → (mfaHandler env .validate token st).2 = .valid true) ∧
    (∀ r, st = some r → r.enabled = false →
      (mfaHandler env .validate token st).2 = .valid true) ∧
    (∀ r s, st = some r → r.enabled = true → env.decrypt r.secret = some s →
      env.totpMatch s token = false →
      (mfaHandler env .validate token st).2 = .valid false) := by
  refine ⟨?_, ?_, ?_, ?_⟩
  · cases st with
    | none => rfl
    | some r =>
        by_cases he : r.enabled = false
        · simp [mfaHandler, he]
        · cases hd : env.decrypt r.secret <;> simp [mfaHandler, he, hd]
  · intro h; subst h; rfl
  · intro r h he; subst h; simp [mfaHandler, he]
  · intro r s h he hd hm; subst h
    simp [mfaHandler, he, hd, hm]

/-- C4 witness: on an active record with a decryptable secret and a
non-matching token, validate answers `{valid: false}` and leaves the row
unchanged. -/
theorem mfa_validate_readonly_gate_witness :
    (mfaHandler envVerifyBad .validate "000000" (some ⟨[1], true⟩)).1 =
      some ⟨[1], true⟩ ∧
    (mfaHandler envVerifyBad .validate "000000" (some ⟨[1], true⟩)).2 =
      .valid false :=
  ⟨(mfa_validate_readonly_gate envVerifyBad "000000" (some ⟨[1], true⟩)).1,
   (mfa_validate_readonly_gate envVerifyBad "000000"
      (some ⟨[1], true⟩)).2.2.2 ⟨[1], true⟩ "sA" rfl rfl (by decide) rfl⟩

/-- C5 counterexample: on a stored blob that cannot be decrypted, verify and
validate do NOT answer `{valid: false}` — the decryption exception reaches
the outer catch, which answers a 500 error payload (with the fixed generic
message), so the claim as stated fails at this concrete input. -/
theorem mfa_decrypt_fail_cex :
    (mfaHandler envDecFail .verify "123456" (some ⟨[9], true⟩)).2 =
      .errorResp 500 genericErrorMsg ∧
    (mfaHandler envDecFail .validate "123456" (some ⟨[9], true⟩)).2 =
      .errorResp 500 genericErrorMsg ∧
    (mfaHandler envDecFail .verify "123456" (some ⟨[9], true⟩)).2 ≠
      .valid false ∧
    (mfaHandler envDecFail .validate "123456" (some ⟨[9], true⟩)).2 ≠
      .valid false := by
  refine ⟨rfl, rfl, ?_, ?_⟩ <;> decide

/-- C5 amended: on a stored blob that cannot be decrypted, verify and
validate fail closed with a generic 500 error response carrying the fixed
message of the outer catch (no crypto exception detail crosses the
boundary), the caller's row is left unchanged, and in particular the answer
is never a different validity verdict. -/
theorem mfa_decrypt_fail_generic500 (env : MfaEnv) (r : MfaRecord)
    (token : String) (hdec : env.decrypt r.secret = none) :
    mfaHandler env .verify token (some r) =
      (some r, .errorResp 500 genericErrorMsg) ∧
    (r.enabled = true →
      mfaHandler env .validate token (some r) =
        (some r, .errorResp 500 genericErrorMsg)) := by
  constructor
  · simp [mfaHandler, hdec]
  · intro he; simp [mfaHandler, hdec, he]

/-- C5 witness: the amended behaviour evaluated on the failing-decryption
environment at a concrete active record. -/
theorem mfa_decrypt_fail_generic500_witness :
    mfaHandler envDecFail .verify "654321" (some ⟨[8], true⟩) =
      (some ⟨[8], true⟩, .errorResp 500 genericErrorMsg) ∧
    mfaHandler envDecFail .validate "654321" (some ⟨[8], true⟩) =
      (some ⟨[8], true⟩, .errorResp 500 genericErrorMsg) :=
  ⟨(mfa_decrypt_fail_generic500 envDecFail ⟨[8], true⟩ "654321" rfl).1,
   (mfa_decrypt_fail_generic500 envDecFail ⟨[8], true⟩ "654321" rfl).2 rfl⟩

/-- C3 counterexample: the active state is reachable (setup then a matching
verify), and a further setup on the active record overwrites it with
`enabled=false` — an active-to-pending transition, contradicting the claim
that no in-scope operation moves `enabled=true` back to `enabled=false`. -/
theorem mfa_setup_disables_active_cex :
    mfaRun [(envSetupA, .setup, ""), (envVerifyGood, .verify, "111111")]
        none = some ⟨[1], true⟩ ∧
    mfaRun [(envSetupA, .setup, ""), (envVerifyGood, .verify, "111111"),
        (envSetupB, .setup, "")] none = some ⟨[3], false⟩ := by
  constructor <;> rfl

/-- C3 amended: verify, check and validate never clear `enabled` — a caller
whose record has `enabled=true` still has `enabled=true` after any of them;
setup is the sole exception: its upsert (primary key `user_id`) overwrites
the caller's row with a fresh secret and `enabled=false`, so re-running setup
moves an active record back to pending. -/
theorem mfa_no_disable_except_setup (env : MfaEnv) (a : MfaAction)
    (token : String) (r r' : MfaRecord) (ha : a ≠ MfaAction.setup)
    (h1 : (mfaHandler env a token (some r)).1 = some r')
    (h2 : r.enabled = true) :
    r'.enabled = true ∧
    ∀ env2 tok, env2.insertOk = true →
      (mfaHandler env2 MfaAction.setup tok (some r)).1 =
        some ⟨env2.encryptedFresh, false⟩ := by
  constructor
  · cases a with
    | setup => exact absurd rfl ha
    | verify =>
        cases hd : env.decrypt r.secret with
        | none =>
            simp only [mfaHandler, hd] at h1
            cases h1; exact h2
        | some s =>
            by_cases hm : env.totpMatch s token
            · simp only [mfaHandler, hd, if_pos hm] at h1
              cases h1; rfl
            · simp only [mfaHandler, hd, if_neg hm] at h1
              cases h1; exact h2
    | check =>
        simp only [mfaHandler] at h1
        cases h1; exact h2
    | validate =>
        by_cases he : r.enabled = false
        · rw [he] at h2; cases h2
        · cases hd : env.decrypt r.secret <;>
            simp only [mfaHandler, if_neg he, hd] at h1 <;>
            (cases h1; exact h2)
  · intro env2 tok hins
    simp [mfaHandler, hins]

/-- Helper: a trace containing no setup request leaves an absent record
absent (verify answers 400 without writing, check and validate read only). -/
theorem mfaRun_no_setup_none (tr : List (MfaEnv × MfaAction × String))
    (h : ∀ step ∈ tr, step.2.1 ≠ MfaAction.setup) :
    mfaRun tr none = none := by
  induction tr with
  | nil => rfl
  | cons hd tl ih =>
      have hhd := h hd (List.mem_cons_self hd tl)
      have hstep : (mfaHandler hd.1 hd.2.1 hd.2.2 none).1 = none := by
        cases ha : hd.2.1 with
        | setup => exact absurd ha hhd
        | verify => rfl
        | check => rfl
        | validate => rfl
      show mfaRun tl (mfaHandler hd.1 hd.2.1 hd.2.2 none).1 = none
      rw [hstep]
      exact ih (fun step hs => h step (List.mem_cons_of_mem hd hs))

/-- C2: the record is created by setup with `enabled=false`; `enabled`
becomes true only through a verify whose token matched; check answers false
before any setup (the record stays absent under setup-free traces); and a
setup followed by an incorrect verify still leaves check at false. -/
theorem mfa_lifecycle_enabled_only_by_verify :
    (∀ env tok st, env.insertOk = true →
      (mfaHandler env MfaAction.setup tok st).1 =
        some ⟨env.encryptedFresh, false⟩) ∧
    (∀ tr, (∀ step ∈ tr, step.2.1 ≠ MfaAction.setup) →
      mfaRun tr none = none ∧
      ∀ env tok, (mfaHandler env MfaAction.check tok (mfaRun tr none)).2 =
        .enabledAns false) ∧
    (∀ env a tok st r', (mfaHandler env a tok st).1 = some r' →
      r'.enabled = true →
      (∃ r, st = some r ∧ r.enabled = true) ∨
      (a = MfaAction.verify ∧ ∃ r s, st = some r ∧
        env.decrypt r.secret = some s ∧ env.totpMatch s tok = true)) ∧
    (∀ env1 env2 tok1 tok2 s, env1.insertOk = true →
      env2.decrypt env1.encryptedFresh = some s →
      env2.totpMatch s tok2 = false →
      enabledOf (mfaRun [(env1, MfaAction.setup, tok1),
        (env2, MfaAction.verify, tok2)] none) = false) := by
  refine ⟨?_, ?_, ?_, ?_⟩
  · intro env tok st hins
    simp [mfaHandler, hins]
  · intro tr htr
    have hnone := mfaRun_no_setup_none tr htr
    exact ⟨hnone, fun env tok => by rw [hnone]; rfl⟩
  · intro env a tok st r' h1 h2
    cases a with
    | setup =>
        by_cases hins : env.insertOk
        · simp only [mfaHandler, if_pos hins] at h1
          cases h1
          cases h2
        · simp only [mfaHandler, if_neg hins] at h1
          exact Or.inl ⟨r', h1, h2⟩
    | verify =>
        cases st with
        | none =>
            simp only [mfaHandler] at h1
            exact Option.noConfusion h1
        | some r =>
            cases hd : env.decrypt r.secret with
            | none =>
                simp only [mfaHandler, hd] at h1
                cases h1
                exact Or.inl ⟨r', rfl, h2⟩
            | some s =>
                by_cases hm : env.totpMatch s tok
                · exact Or.inr ⟨rfl, r, s, rfl, hd, hm⟩
                · simp only [mfaHandler, hd, if_neg hm] at h1
                  cases h1
                  exact Or.inl ⟨r', rfl, h2⟩
    | check =>
        simp only [mfaHandler] at h1
        exact Or.inl ⟨r', h1, h2⟩
    | validate =>
        cases st with
        | none =>
            simp only [mfaHandler] at h1
            exact Option.noConfusion h1
        | some r =>
            by_cases he : r.enabled = false
            · simp only [mfaHandler, if_pos he] at h1
              cases h1
              exact Or.inl ⟨r', rfl, h2⟩
            · cases hd : env.decrypt r.secret <;>
                simp only [mfaHandler, if_neg he, hd] at h1 <;>
                (cases h1; exact Or.inl ⟨r', rfl, h2⟩)
  · intro env1 env2 tok1 tok2 s hins hd hm
    simp [mfaRun, mfaHandler, hins, hd, hm, enabledOf]

/-- C2 witness: a concrete setup followed by an incorrect verify leaves the
check answer at false. -/
theorem mfa_lifecycle_witness :
    enabledOf (mfaRun [(envSetupA, MfaAction.setup, ""),
      (envVerifyBad, MfaAction.verify, "999999")] none) = false :=
  mfa_lifecycle_enabled_only_by_verify.2.2.2 envSetupA envVerifyBad ""
    "999999" "sA" rfl (by decide) rfl

/-- C1: when the caller's record has `enabled=true`, the privileged edge
function responds 403 without reaching the LLM call if the `X-MFA-Token`
header is absent, responds 403 if the MFA validate action answers anything
but `{valid: true}` for the supplied token, and conversely the LLM call is
reached only with a header whose token the validate action accepted. -/
theorem privileged_gate_requires_valid_mfa (env : MfaEnv) (r : MfaRecord)
    (hr : r.enabled = true) :
    aiTutorGate env (some r) none =
      .respond 403 "MFA token required for this operation" ∧
    (∀ tok, (mfaHandler env MfaAction.validate tok (some r)).2 ≠
        MfaResponse.valid true →
      aiTutorGate env (some r) (some tok) =
        .respond 403 "Invalid MFA token") ∧
    (∀ tokOpt, aiTutorGate env (some r) tokOpt = .llmCall →
      ∃ tok, tokOpt = some tok ∧
        (mfaHandler env MfaAction.validate tok (some r)).2 =
          MfaResponse.valid true) := by
  have hen : enabledOf (some r) = true := hr
  refine ⟨?_, ?_, ?_⟩
  · simp [aiTutorGate, hen]
  · intro tok hne
    cases hresp : (mfaHandler env MfaAction.validate tok (some r)).2 with
    | setupOk s q => simp [aiTutorGate, hen, hresp]
    | valid b =>
        cases b with
        | true => exact absurd hresp hne
        | false => simp [aiTutorGate, hen, hresp]
    | enabledAns b => simp [aiTutorGate, hen, hresp]
    | errorResp st msg => simp [aiTutorGate, hen, hresp]
  · intro tokOpt hllm
    cases tokOpt with
    | none => simp [aiTutorGate, hen] at hllm
    | some tok =>
        refine ⟨tok, rfl, ?_⟩
        cases hresp : (mfaHandler env MfaAction.validate tok (some r)).2 with
        | setupOk s q => simp [aiTutorGate, hen, hresp] at hllm
        | valid b =>
            cases b with
            | true => rfl
            | false => simp [aiTutorGate, hen, hresp] at hllm
        | enabledAns b => simp [aiTutorGate, hen, hresp] at hllm
        | errorResp st msg => simp [aiTutorGate, hen, hresp] at hllm

/-- C1 witness: with MFA active, a request without the header is refused
403, and a request whose token fails validation is refused 403. -/
theorem privileged_gate_requires_valid_mfa_witness :
    aiTutorGate envVerifyBad (some ⟨[1], true⟩) none =
      .respond 403 "MFA token required for this operation" ∧
    aiTutorGate envVerifyBad (some ⟨[1], true⟩) (some "000000") =
      .respond 403 "Invalid MFA token" :=
  ⟨(privileged_gate_requires_valid_mfa envVerifyBad ⟨[1], true⟩ rfl).1,
   (privileged_gate_requires_valid_mfa envVerifyBad ⟨[1], true⟩ rfl).2.1
     "000000" (by decide)⟩

/-- C3 amended witness: an incorrect verify on an active record keeps it
active, and a setup on it rewrites the row as pending. -/
theorem mfa_no_disable_except_setup_witness :
    (⟨[1], true⟩ : MfaRecord).enabled = true ∧
    ∀ env2 tok, env2.insertOk = true →
      (mfaHandler env2 MfaAction.setup tok (some ⟨[1], true⟩)).1 =
        some ⟨env2.encryptedFresh, false⟩ :=
  mfa_no_disable_except_setup envVerifyBad MfaAction.verify "222222"
    ⟨[1], true⟩ ⟨[1], true⟩ (by decide) (by decide) rfl

/-- Helper: filtering with a predicate after keeping only its complement
yields nothing. -/
theorem filter_after_filter_not {α : Type} (p : α → Bool) (l : List α) :
    (l.filter (fun a => !(p a))).filter p = [] := by
  induction l with
  | nil => rfl
  | cons a l ih =>
      cases hp : p a <;> simp [List.filter_cons, hp, ih]

/-- Helper: the pair predicate depends on the email only through its
lower-casing. -/
theorem matchesPair_congr (e1 t1 e2 t2 : String)
    (he : e1.toLower = e2.toLower) (ht : t1 = t2) :
    matchesPair e1 t1 = matchesPair e2 t2 := by
  funext r
  simp [matchesPair, he, ht]

/-- Helper: a filtered store never has more rows for a pair than the
original store. -/
theorem countPair_filter_le (q : OtpRow → Bool) (store : List OtpRow)
    (e t : String) :
    countPair (store.filter q) e t ≤ countPair store e t := by
  exact List.Sublist.length_le
    (List.Sublist.filter (matchesPair e t) (List.filter_sublist store))

/-- Helper: one issue request keeps every pair count at most one. -/
theorem countPair_issueStep_le (req : IssueReq) (store : List OtpRow)
    (e t : String) (h : countPair store e t ≤ 1) :
    countPair (issueStep req store) e t ≤ 1 := by
  by_cases hem : req.email = ""
  · simpa [issueStep, sendOtpHandler, hem] using h
  · by_cases hins : req.insertOk = true
    · have hfst : issueStep req store =
          store.filter (fun r => !(matchesPair req.email req.typ r)) ++
            [newOtpRow req.now req.code req.email req.typ] := by
        cases hsend : req.sendOk <;>
          simp [issueStep, sendOtpHandler, hem, hins, hsend]
      rw [hfst]
      unfold countPair pairRows
      rw [List.filter_append, List.length_append]
      cases hm : matchesPair e t (newOtpRow req.now req.code req.email req.typ)
      · have : List.filter (matchesPair e t)
            [newOtpRow req.now req.code req.email req.typ] = [] := by
          simp [List.filter_cons, hm]
        rw [this]
        simp only [List.length_nil, Nat.add_zero]
        exact le_trans (countPair_filter_le _ store e t) h
      · have hparts : req.email.toLower = e.toLower ∧ req.typ = t := by
          have hm2 := hm
          simp only [matchesPair, newOtpRow, Bool.and_eq_true, beq_iff_eq]
            at hm2
          exact hm2
        have hcongr : matchesPair e t =
            matchesPair req.email req.typ :=
          matchesPair_congr e t req.email req.typ hparts.1.symm
            hparts.2.symm
        rw [hcongr, filter_after_filter_not]
        simp [List.filter_cons, hcongr ▸ hm]
    · have hfst : issueStep req store =
          store.filter (fun r => !(matchesPair req.email req.typ r)) := by
        simp [issueStep, sendOtpHandler, hem, hins]
      rw [hfst]
      exact le_trans (countPair_filter_le _ store e t) h

/-- Helper: pair counts stay at most one along any issue sequence. -/
theorem countPair_foldl_le (reqs : List IssueReq) (store : List OtpRow)
    (h : ∀ e t, countPair store e t ≤ 1) :
    ∀ e t, countPair (reqs.foldl (fun s req => issueStep req s) store) e t
      ≤ 1 := by
  induction reqs generalizing store with
  | nil => exact h
  | cons req reqs ih =>
      intro e t
      simp only [List.foldl_cons]
      exact ih (issueStep req store)
        (fun e2 t2 => countPair_issueStep_le req store e2 t2 (h e2 t2)) e t

/-- Helper: a successful insert leaves exactly the freshly inserted row for
the issued pair. -/
theorem pairRows_issueStep (store : List OtpRow) (req : IssueReq)
    (hem : req.email ≠ "") (hins : req.insertOk = true) :
    pairRows (issueStep req store) req.email req.typ =
      [newOtpRow req.now req.code req.email req.typ] := by
  have hfst : issueStep req store =
      store.filter (fun r => !(matchesPair req.email req.typ r)) ++
        [newOtpRow req.now req.code req.email req.typ] := by
    cases hsend : req.sendOk <;>
      simp [issueStep, sendOtpHandler, hem, hins, hsend]
  rw [hfst]
  unfold pairRows
  rw [List.filter_append, filter_after_filter_not]
  simp [List.filter_cons, matchesPair, newOtpRow]

/-- C6: at most one challenge row per case-normalized (email, purpose) pair —
every issue sequence from the empty table keeps each pair count at most one;
a successful issue first deletes all rows of its pair and then inserts
exactly one fresh row, whose expiry is `now + 10 minutes`; so a second issue
supersedes the first and only the latest code remains for the pair. -/
theorem otp_at_most_one_per_pair :
    (∀ reqs email typ, countPair (runIssues reqs) email typ ≤ 1) ∧
    (∀ store req, req.email ≠ "" → req.insertOk = true →
      pairRows (issueStep req store) req.email req.typ =
        [newOtpRow req.now req.code req.email req.typ]) ∧
    (∀ now code email typ,
      (newOtpRow now code email typ).expiresAt = now + 10 * 60 * 1000) := by
  refine ⟨?_, ?_, ?_⟩
  · intro reqs email typ
    exact countPair_foldl_le reqs []
      (fun e t => by simp [countPair, pairRows]) email typ
  · intro store req hem hins
    exact pairRows_issueStep store req hem hins
  · intro now code email typ
    rfl

/-- Concrete issue request: a first successful issue. -/
def reqA : IssueReq := ⟨1000, "111111", true, true, "User@Example.com", "login"⟩

/-- Concrete issue request: same pair (case-varied email), insert succeeds,
email send fails. -/
def reqB : IssueReq :=
  ⟨2000, "222222", true, false, "user@example.COM", "login"⟩

/-- Concrete issue request: same pair again, fully successful. -/
def reqC : IssueReq :=
  ⟨3000, "333333", true, true, "USER@EXAMPLE.com", "login"⟩

/-- C6 witness: re-issuing for the same case-normalized pair leaves exactly
the latest row. -/
theorem otp_at_most_one_per_pair_witness :
    pairRows (issueStep reqB (issueStep reqA [])) "user@example.COM"
        "login" =
      [newOtpRow 2000 "222222" "user@example.COM" "login"] :=
  otp_at_most_one_per_pair.2.1 (issueStep reqA []) reqB (by decide) rfl

/-- C9: when the outbound email send fails during issue, the handler answers
500 while the freshly inserted challenge row remains the (only) persisted row
for the pair; a subsequent issue for the same case-normalized pair supersedes
that stale row. -/
theorem otp_send_failure_supersede (store : List OtpRow)
    (req req2 : IssueReq) (h1 : req.email ≠ "") (h2 : req.insertOk = true)
    (h3 : req.sendOk = false) (h4 : req2.email ≠ "")
    (h5 : req2.insertOk = true) :
    (sendOtpHandler req.now req.code req.insertOk req.sendOk req.email
      req.typ store).2 = 500 ∧
    pairRows (issueStep req store) req.email req.typ =
      [newOtpRow req.now req.code req.email req.typ] ∧
    pairRows (issueStep req2 (issueStep req store)) req2.email req2.typ =
      [newOtpRow req2.now req2.code req2.email req2.typ] := by
  refine ⟨?_, ?_, ?_⟩
  · simp [sendOtpHandler, h1, h2, h3]
  · exact pairRows_issueStep store req h1 h2
  · exact pairRows_issueStep (issueStep req store) req2 h4 h5

/-- C9 witness: a concrete send failure answers 500, keeps the inserted row,
and a later successful issue for the pair supersedes it. -/
theorem otp_send_failure_supersede_witness :
    (sendOtpHandler 2000 "222222" true false "user@example.COM" "login"
      (issueStep reqA [])).2 = 500 ∧
    pairRows (issueStep reqB (issueStep reqA [])) "user@example.COM"
        "login" =
      [newOtpRow 2000 "222222" "user@example.COM" "login"] ∧
    pairRows (issueStep reqC (issueStep reqB (issueStep reqA [])))
        "USER@EXAMPLE.com" "login" =
      [newOtpRow 3000 "333333" "USER@EXAMPLE.com" "login"] :=
  otp_send_failure_supersede (issueStep reqA []) reqB reqC (by decide) rfl
    rfl (by decide) rfl

/-- C10: the send-otp handler answers 400 exactly when the request's email is
missing or empty (and then touches nothing); for every non-empty email — with
no caller identity and no account lookup in its inputs — it deletes the
pair's prior rows, persists the fresh row when the insert succeeds, and the
status is 200 on a successful send and 500 when the insert or the send
fails. -/
theorem otp_send_400_iff_no_email (now : Nat) (code : String)
    (insertOk sendOk : Bool) (email typ : String) (store : List OtpRow) :
    ((sendOtpHandler now code insertOk sendOk email typ store).2 = 400 ↔
      email = "") ∧
    (email = "" →
      sendOtpHandler now code insertOk sendOk email typ store =
        (store, 400)) ∧
    (email ≠ "" →
      (sendOtpHandler now code insertOk sendOk email typ store).1 =
        (if insertOk then
          store.filter (fun r => !(matchesPair email typ r)) ++
            [newOtpRow now code email typ]
         else store.filter (fun r => !(matchesPair email typ r)))) ∧
    (email ≠ "" → insertOk = true → sendOk = true →
      (sendOtpHandler now code insertOk sendOk email typ store).2 = 200) ∧
    (email ≠ "" → (insertOk = false ∨ sendOk = false) →
      (sendOtpHandler now code insertOk sendOk email typ store).2 = 500) := by
  by_cases hem : email = ""
  · refine ⟨?_, ?_, ?_, ?_, ?_⟩
    · simp [sendOtpHandler, hem]
    · intro _; simp [sendOtpHandler, hem]
    · intro hne; exact absurd hem hne
    · intro hne; exact absurd hem hne
    · intro hne; exact absurd hem hne
  · refine ⟨?_, ?_, ?_, ?_, ?_⟩
    · cases hins : insertOk <;> cases hsend : sendOk <;>
        simp [sendOtpHandler, hem, hins, hsend]
    · intro h; exact absurd h hem
    · intro _
      cases hins : insertOk <;> cases hsend : sendOk <;>
        simp [sendOtpHandler, hem, hins, hsend]
    · intro _ hins hsend
      simp [sendOtpHandler, hem, hins, hsend]
    · intro _ hor
      cases hins : insertOk with
      | false => simp [sendOtpHandler, hem, hins]
      | true =>
          cases hsend : sendOk with
          | false => simp [sendOtpHandler, hem, hins, hsend]
          | true =>
              rw [hins, hsend] at hor
              simp at hor

/-- C10 witness: an empty email is refused 400; a concrete non-empty request
succeeds with 200. -/
theorem otp_send_400_iff_no_email_witness :
    ((sendOtpHandler 1000 "111111" true true "" "login" []).2 = 400 ↔
      ("" : String) = "") ∧
    (sendOtpHandler 1000 "111111" true true "User@Example.com" "login"
      []).2 = 200 :=
  ⟨(otp_send_400_iff_no_email 1000 "111111" true true "" "login" []).1,
   (otp_send_400_iff_no_email 1000 "111111" true true "User@Example.com"
      "login" []).2.2.2.1 (by decide) rfl rfl⟩

end AdaptiFinance

